import Mathlib

/-!
Verification development for the agent dispatch-and-recovery core of this
repository (Go sources under `internal/llm/agent` and `internal/config`).

The development shallow-embeds the relevant Go code:

* the agent-definition loader (`loadAgentsFromDir`, `parseAgentMarkdown`,
  `LoadAgentDefinitions` in the config package);
* the dispatch operation of the `agent` tool (`agentTool.Run` in
  `agent-tool.go`), including its response-recovery chain and cost
  aggregation;
* the dynamically generated tool metadata (`agentTool.Info`);
* `FormatAgentName`.

Go strings are Lean `String`s; all character-level operations
(`strings.TrimSpace`, `strings.Split`, `strings.Fields`, ...) are
re-implemented structurally over `String.data` so that every definition
evaluates by kernel reduction.  Cost counters (`float64` in Go) are
modelled as `Int`: the claims under study concern only when and how often
costs are added, never rounding.  The YAML unmarshalling performed by
`gopkg.in/yaml.v3` is modelled at the level of an already-tokenised
frontmatter: a `Frontmatter` records, for each recognised header field,
whether the field is absent, a scalar string, or a native YAML list,
which is exactly the distinction the two Go unmarshal passes are
sensitive to.
-/

/-! ### Character-level string helpers

Structural models of the Go standard-library string functions used by the
embedded code.  They operate on `String.data` so that they reduce inside
the kernel. -/

/-- Model of Go `strings.Split`/`strings.FieldsFunc` splitting: cut a
character list at every character satisfying `p`, keeping empty segments
(as `strings.Split` does). -/
def splitByAux (p : Char → Bool) : List Char → List Char → List (List Char)
  | [], acc => [acc.reverse]
  | c :: cs, acc =>
    if p c then acc.reverse :: splitByAux p cs []
    else splitByAux p cs (c :: acc)

/-- Split a string at every character satisfying `p`, keeping empty
segments. -/
def splitBy (p : Char → Bool) (s : String) : List String :=
  (splitByAux p s.data []).map String.mk

/-- Model of Go `strings.TrimSpace`: drop leading and trailing whitespace. -/
def trimSpace (s : String) : String :=
  String.mk (((s.data.dropWhile Char.isWhitespace).reverse.dropWhile
    Char.isWhitespace).reverse)

/-- Model of `strings.Fields`: split on whitespace and drop empty
segments. -/
def fields (s : String) : List String :=
  (splitBy Char.isWhitespace s).filter (· ≠ "")

/-- Model of Go `strings.Join`. -/
def joinSep (sep : String) : List String → String
  | [] => ""
  | [x] => x
  | x :: xs => x ++ sep ++ joinSep sep xs

/-- Model of `strings.ReplaceAll(s, "-", " ")` specialised to single
characters. -/
def replaceChar (old new : Char) (s : String) : String :=
  String.mk (s.data.map fun c => if c = old then new else c)

/-- Capitalisation of one word as in `FormatAgentName`:
`strings.ToUpper(word[:1]) + word[1:]`. -/
def capitalizeWord (w : String) : String :=
  match w.data with
  | [] => ""
  | c :: cs => String.mk (c.toUpper :: cs)

/-! ### Agent definition loader (config package)

Embeds `parseAgentMarkdown`, `loadAgentsFromDir` and
`LoadAgentDefinitions` from the config package's agent loader. -/

/-- AgentDefinition as in the config package.  `tools`, `mcpServers` and
`lspServers` are `Option (List String)` mirroring the Go nil-slice /
populated-slice distinction (`none` = Go `nil` = inherit-all). -/
structure AgentDefinition where
  name : String
  description : String
  tools : Option (List String)
  mcpServers : Option (List String)
  lspServers : Option (List String)
  systemPrompt : String
  isPriority : Bool
deriving DecidableEq

/-- Shape of one frontmatter field as seen by `yaml.Unmarshal`: absent
from the header, a scalar string, or a native YAML list. -/
inductive YamlField where
  | absent
  | scalar (s : String)
  | list (l : List String)
deriving DecidableEq

/-- Modelled from the spec: the YAML frontmatter of an agent definition
file, as tokenised by `gopkg.in/yaml.v3` (a library external to the
sources under study).  Only the recognised header fields are kept; `name`
and `description` are scalars when present.  A `yaml.Unmarshal` of the
header into a struct whose field is `string` succeeds exactly when the
corresponding YAML value is not a list, and into `[]string` exactly when
it is not a scalar; `Frontmatter` records that shape for each field. -/
structure Frontmatter where
  name : Option String
  description : Option String
  tools : YamlField
  mcpServers : YamlField
  lspServers : YamlField
deriving DecidableEq

/-- Result of the first unmarshal pass in `parseAgentMarkdown` (the
anonymous `agentDefString` struct: every field a Go `string`). -/
structure AgentDefStringForm where
  name : String
  description : String
  tools : String
  mcpServers : String
  lspServers : String
deriving DecidableEq

/-- A field read into a Go `string`: absent yields `""`, a scalar yields
the scalar, a list fails the whole unmarshal. -/
def YamlField.asString : YamlField → Option String
  | .absent => some ""
  | .scalar s => some s
  | .list _ => none

/-- A field read into a Go `[]string`: absent yields `nil`, a list yields
the list, a scalar fails the whole unmarshal. -/
def YamlField.asList : YamlField → Option (Option (List String))
  | .absent => some none
  | .scalar _ => none
  | .list l => some (some l)

/-- First unmarshal pass of `parseAgentMarkdown` (tools/MCP/LSP fields as
strings). -/
def unmarshalStringForm (fm : Frontmatter) : Option AgentDefStringForm := do
  let t ← fm.tools.asString
  let m ← fm.mcpServers.asString
  let l ← fm.lspServers.asString
  pure ⟨fm.name.getD "", fm.description.getD "", t, m, l⟩

/-- Comma splitting of a tools/servers string as in `parseAgentMarkdown`:
`strings.Split(s, ",")`, each entry `strings.TrimSpace`d, empty entries
dropped. -/
def splitComma (s : String) : List String :=
  ((splitBy (· = ',') s).map trimSpace).filter (· ≠ "")

/-- Go appends the surviving entries to a nil slice, so a split with no
surviving entries leaves the field `nil`. -/
def optList (l : List String) : Option (List String) :=
  if l = [] then none else some l

/-- Shared tail of both parse paths: validation of required fields and
extraction of the system prompt (`strings.TrimSpace(parts[2])`). -/
def validateAgent (name description : String)
    (tools mcp lsp : Option (List String)) (body : String) :
    Option AgentDefinition :=
  if name = "" then none
  else if description = "" then none
  else
    let sp := trimSpace body
    if sp = "" then none
    else some ⟨name, description, tools, mcp, lsp, sp, false⟩

/-- Second parse attempt of `parseAgentMarkdown`: unmarshal the header
with the three allow-list fields as native lists. -/
def parseListForm (fm : Frontmatter) (body : String) : Option AgentDefinition := do
  let t ← fm.tools.asList
  let m ← fm.mcpServers.asList
  let l ← fm.lspServers.asList
  validateAgent (fm.name.getD "") (fm.description.getD "") t m l body

/-- Embedding of `parseAgentMarkdown` (config package), applied to the
frontmatter and body obtained from the `---` split.  The string-form
result is used only when that unmarshal succeeded *and* produced a
nonempty `tools` string; otherwise the list-form pass runs. -/
def parseAgentMarkdown (fm : Frontmatter) (body : String) :
    Option AgentDefinition :=
  match unmarshalStringForm fm with
  | some t =>
    if t.tools ≠ "" then
      validateAgent t.name t.description (optList (splitComma t.tools))
        (optList (splitComma t.mcpServers)) (optList (splitComma t.lspServers))
        body
    else parseListForm fm body
  | none => parseListForm fm body

/-- The in-memory registry built by `LoadAgentDefinitions`
(`map[string]AgentDefinition`), as an association list. -/
abbrev Registry := List (String × AgentDefinition)

/-- Registry lookup (`agents[name]`). -/
def findAgent : Registry → String → Option AgentDefinition
  | [], _ => none
  | (k, v) :: r, n => if k = n then some v else findAgent r n

/-- Registry update (`agents[name] = def`): replace the existing binding
or append a new one. -/
def upsert : Registry → String → AgentDefinition → Registry
  | [], n, a => [(n, a)]
  | (k, v) :: r, n, a =>
    if k = n then (n, a) :: r else (k, v) :: upsert r n a

/-- Per-file merge step of `loadAgentsFromDir`: stamp the priority flag,
then store the definition unless an existing priority entry blocks a
non-priority incomer (`!exists || isPriority || !existing.IsPriority`). -/
def insertAgent (r : Registry) (a : AgentDefinition) (pr : Bool) : Registry :=
  let a' := { a with isPriority := pr }
  match findAgent r a.name with
  | none => upsert r a.name a'
  | some existing =>
    if pr || !existing.isPriority then upsert r a.name a' else r

/-- Embedding of `loadAgentsFromDir`: fold the directory's files (given
as tokenised frontmatter plus body, in directory order) into the
registry; files that fail to parse are skipped with a warning. -/
def loadAgentsFromDir : List (Frontmatter × String) → Registry → Bool → Registry
  | [], r, _ => r
  | f :: fs, r, pr =>
    loadAgentsFromDir fs
      (match parseAgentMarkdown f.1 f.2 with
       | none => r
       | some a => insertAgent r a pr) pr

/-- Embedding of `LoadAgentDefinitions`: user-scope files first
(non-priority), then project-scope files (priority). -/
def loadAgentDefinitions (userFiles projectFiles : List (Frontmatter × String)) :
    Registry :=
  loadAgentsFromDir projectFiles (loadAgentsFromDir userFiles [] false) true

/-- Last definition with a given name in a list of parsed definitions
(specification-side accessor used to characterise the merge). -/
def lastNamed (n : String) : List AgentDefinition → Option AgentDefinition
  | [] => none
  | a :: ds =>
    match lastNamed n ds with
    | some b => some b
    | none => if a.name = n then some a else none

/-- Last well-formed definition named `n` among a directory's files. -/
def lastDef (files : List (Frontmatter × String)) (n : String) :
    Option AgentDefinition :=
  lastNamed n (files.filterMap fun f => parseAgentMarkdown f.1 f.2)

/-! ### Message model (spec-modelled)

Modelled from the spec: the `message` package of this repository is not
among the sources under study; the spec describes a RawResult as a
producer role (assistant/tool/other), a list of content parts (text,
reasoning, tool-call requests, tool-result parts each flagged
success/error) and a declared finish reason (`end_turn`, `tool_use`,
`error`, `canceled`, or unknown/empty).  The accessors used by
`agentTool.Run` are modelled accordingly: `contentString` is the direct
textual content (the first text part), `toolCalls` the pending tool-call
requests, `reasoningThinking` the reasoning text. -/

/-- ToolResult content part (success/error flagged). -/
structure ToolResultPart where
  name : String
  content : String
  isError : Bool
deriving DecidableEq

/-- ToolCall content part (a pending tool-call request). -/
structure ToolCallPart where
  name : String
deriving DecidableEq

/-- One content part of a raw result. -/
inductive ContentPart where
  | text (t : String)
  | reasoning (thinking : String)
  | toolCall (tc : ToolCallPart)
  | toolResult (tr : ToolResultPart)
deriving DecidableEq

/-- Modelled from the spec: a RawResult delivered on the completion
channel (`message.Message` in the code). -/
structure Message where
  role : String
  parts : List ContentPart
  finishReason : String
deriving DecidableEq

/-- Producer role of the generative assistant. -/
def roleAssistant : String := "assistant"

/-- Producer role of a tool message. -/
def roleTool : String := "tool"

/-- Finish reason constant `message.FinishReasonEndTurn`. -/
def finishReasonEndTurn : String := "end_turn"

/-- Finish reason constant `message.FinishReasonToolUse`. -/
def finishReasonToolUse : String := "tool_use"

/-- Finish reason constant `message.FinishReasonCanceled`. -/
def finishReasonCanceled : String := "canceled"

/-- Finish reason constant `message.FinishReasonError`. -/
def finishReasonError : String := "error"

/-- Direct textual content (`response.Content().String()`): the first
text part, or `""` when there is none. -/
def Message.contentString (m : Message) : String :=
  (m.parts.filterMap fun p =>
    match p with
    | .text t => some t
    | _ => none).headD ""

/-- Pending tool-call requests (`response.ToolCalls()`). -/
def Message.toolCalls (m : Message) : List ToolCallPart :=
  m.parts.filterMap fun p =>
    match p with
    | .toolCall tc => some tc
    | _ => none

/-- Tool-result parts of the message. -/
def Message.toolResults (m : Message) : List ToolResultPart :=
  m.parts.filterMap fun p =>
    match p with
    | .toolResult tr => some tr
    | _ => none

/-- Reasoning text (`response.ReasoningContent().Thinking`): the first
reasoning part, or `""`. -/
def Message.reasoningThinking (m : Message) : String :=
  (m.parts.filterMap fun p =>
    match p with
    | .reasoning t => some t
    | _ => none).headD ""

/-! ### Response recovery engine (`agentTool.Run`, result handling) -/

/-- Finish reason after the empty-reason recovery step of `Run`: an empty
declared reason is inferred from the message state (tool calls pending ⇒
`tool_use`; nonempty content ⇒ `end_turn`; otherwise `canceled`). -/
def effectiveFinishReason (m : Message) : String :=
  if m.finishReason = "" then
    if m.toolCalls.length > 0 then finishReasonToolUse
    else if m.contentString ≠ "" then finishReasonEndTurn
    else finishReasonCanceled
  else m.finishReason

/-- Classified outcome of the result-handling part of `Run`.
`errResp`/`okEarly` return from `Run` before the cost-aggregation block;
`okMain` falls through to it. -/
inductive RecoveryOutcome where
  | errResp (content : String)
  | okEarly (content : String)
  | okMain (content : String)
deriving DecidableEq

/-- Scan of the non-assistant branch: first successful tool-result part
with nonempty content. -/
def firstGoodToolResult : List ContentPart → Option String
  | [] => none
  | .toolResult tr :: rest =>
    if !tr.isError && tr.content ≠ "" then some tr.content
    else firstGoodToolResult rest
  | _ :: rest => firstGoodToolResult rest

/-- Final fallback diagnostic of recovery strategy 5. -/
def noOutputMsg (agentName : String) : String :=
  "Sub-agent \x27" ++ agentName ++
  "\x27 completed but produced no output. This typically indicates the agent encountered an issue but didn\x27t report it properly. Possible causes: task was unclear, agent lacked necessary permissions, or an internal error occurred. Consider re-running with more specific instructions or checking agent logs."

/-- Diagnostic returned when a recovered content string is empty or
whitespace-only. -/
def recoveryFailedMsg (agentName : String) : String :=
  "Sub-agent \x27" ++ agentName ++
  "\x27 failed to provide any response despite multiple recovery attempts. This suggests a serious issue with the agent or task execution. Please check the task requirements and try again with simpler instructions."

/-- Final validation applied to every recovered content string before the
cost-aggregation block
(`contentStr == "" || strings.TrimSpace(contentStr) == ""`). -/
def validatedRecovery (agentName c : String) : RecoveryOutcome :=
  if c = "" ∨ trimSpace c = "" then .errResp (recoveryFailedMsg agentName)
  else .okMain c

/-- Recovery strategies 1-5 of `Run`, entered when the direct content is
empty, followed by the final whitespace validation. -/
def recoverEmptyContent (m : Message) (agentName : String) : RecoveryOutcome :=
  let validated := validatedRecovery agentName
  if m.reasoningThinking ≠ "" then
    validated ("Sub-agent analysis: " ++ m.reasoningThinking)
  else
    let toolOutputs := m.toolResults.filterMap fun tr =>
      if !tr.isError && tr.content ≠ "" then some (tr.name ++ ": " ++ tr.content)
      else none
    let errorOutputs := m.toolResults.filterMap fun tr =>
      if tr.isError && tr.content ≠ "" then some (tr.name ++ " error: " ++ tr.content)
      else none
    if toolOutputs.length > 0 then
      validated ("Sub-agent completed task with findings:\n" ++ joinSep "\n" toolOutputs)
    else if errorOutputs.length > 0 then
      validated ("Sub-agent encountered issues:\n" ++ joinSep "\n" errorOutputs)
    else
      let textParts := m.parts.filterMap fun p =>
        match p with
        | .text t => if t ≠ "" then some t else none
        | _ => none
      if textParts.length > 0 then
        validated (joinSep " " textParts)
      else if m.toolCalls.length > 0 then
        let toolNames := m.toolCalls.map ToolCallPart.name
        validated ("Sub-agent executed " ++ toString toolNames.length ++
          " tools (" ++ joinSep ", " toolNames ++
          ") but produced no text output. The agent may have completed its task through tool actions.")
      else
        .errResp (noOutputMsg agentName)

/-- Result handling of `Run` from the finish-reason recovery to the final
content: ordered classification producing exactly one recovery outcome. -/
def handleResult (m : Message) (agentName : String) : RecoveryOutcome :=
  let fr := effectiveFinishReason m
  if fr = finishReasonCanceled || fr = finishReasonError then
    .errResp (if fr = finishReasonError then "Sub-agent encountered an error"
              else "Sub-agent execution was interrupted")
  else if m.role ≠ roleAssistant then
    if m.role = roleTool then
      match firstGoodToolResult m.parts with
      | some c => .okEarly c
      | none => .errResp "Sub-agent did not produce a valid response"
    else .errResp "Sub-agent did not produce a valid response"
  else
    let contentStr := m.contentString
    if contentStr ≠ "" then .okMain contentStr
    else recoverEmptyContent m agentName

/-! ### Session store (spec-modelled) -/

/-- Modelled from the spec: a persisted session record of the session
store (the session package is not among the sources under study; §3 and
§6 of the spec describe it as identifier, parent linkage and an
accumulating cost counter).  The Go `float64` cost counter is modelled as
`Int`. -/
structure Session where
  id : String
  parentID : String
  title : String
  cost : Int
deriving DecidableEq

/-- Modelled from the spec: session store contents, keyed by session id. -/
abbrev SessionStore := List Session

/-- Store read (`sessions.Get`): first session with the given id. -/
def storeGet : SessionStore → String → Option Session
  | [], _ => none
  | s :: rest, i => if s.id = i then some s else storeGet rest i

/-- Store write (`sessions.Save`): replace the session with the same id,
or append. -/
def storeSave : SessionStore → Session → SessionStore
  | [], s => [s]
  | t :: rest, s => if t.id = s.id then s :: rest else t :: storeSave rest s

/-! ### Dispatch orchestrator (`agentTool.Run`) -/

/-- Mirror of `config.Agent` as consumed by the agent tool: display name,
description and disabled flag. -/
structure AgentConfig where
  name : String
  description : String
  disabled : Bool
deriving DecidableEq

/-- Mirror of `AgentParams` (the tool-call input after JSON parsing). -/
structure AgentParams where
  prompt : String
  agentName : String
deriving DecidableEq

/-- What the single-shot completion channel race of `Run` observes: the
30-minute bounding context fires first, or the channel delivers its one
`(RawResult, error)` value. -/
inductive ChannelEvent where
  | timeout
  | delivered (error : Option String) (msg : Message)
deriving DecidableEq

/-- The fixed sub-agent execution ceiling (minutes) of
`context.WithTimeout(context.Background(), 30*time.Minute)`. -/
def subAgentTimeoutMinutes : Nat := 30

/-- Generic string-keyed lookup (Go map indexing). -/
def lookupStr {α : Type} : List (String × α) → String → Option α
  | [], _ => none
  | (k, v) :: r, n => if k = n then some v else lookupStr r n

/-- Embedding of `FormatAgentName` (`agent-tool.go`). -/
def FormatAgentName (name : String) : String :=
  if name = "task" then "Task Agent"
  else if name = "code-reviewer" then "Code Reviewer"
  else if name = "debugger" then "Debugger"
  else if name = "test-runner" then "Test Runner"
  else if name = "refactorer" then "Refactorer"
  else if name = "" then "Agent"
  else
    joinSep " " ((fields (replaceChar '-' ' ' name)).map capitalizeWord)

/-- Environment of one `Run` invocation: the tool's state (agent services
and configs), the context values, the session store, and the behaviour of
the external collaborators (session creation, agent service start, and
the completion channel).  `callerCanceled` records whether the caller's
own context has been cancelled; the sub-agent context is built from
`context.Background()`, so `dispatchRun` never consults it.
`childSessionID` is the id the store assigns to the created task session;
`childFinalCost` is the cost the execution has accumulated on the child
session by the time the channel delivers. -/
structure DispatchEnv where
  params : AgentParams
  agentNames : List String
  agentConfigs : List (String × AgentConfig)
  sessionID : String
  messageID : String
  callID : String
  store : SessionStore
  childSessionID : String
  createOk : Bool
  runOk : Bool
  event : ChannelEvent
  childFinalCost : Int
  callerCanceled : Bool
deriving DecidableEq

/-- Observable effects of one `Run` invocation on the external
collaborators: task sessions created, whether the agent service was
invoked, and the number of session-store `Get`/`Save` calls made by the
cost-aggregation block. -/
structure Trace where
  sessionsCreated : Nat
  agentInvoked : Bool
  storeReads : Nat
  storeWrites : Nat
deriving DecidableEq

/-- Trace before any effect. -/
def emptyTrace : Trace := ⟨0, false, 0, 0⟩

/-- Outcome of `Run`: a tool response (`NewTextResponse` when
`isError = false`, `NewTextErrorResponse` when `isError = true`) or a
propagated hard error. -/
inductive Outcome where
  | response (isError : Bool) (content : String)
  | hardError (msg : String)
deriving DecidableEq

/-- Result of one `Run` invocation: the outcome, the session store as
left behind, and the effect trace. -/
structure DispatchResult where
  outcome : Outcome
  store : SessionStore
  trace : Trace
deriving DecidableEq

/-- Embedding of `agentTool.Run` (`agent-tool.go`): validation, session
title resolution, task-session creation, the bounded wait on the
completion channel, the response recovery chain, and the cost-aggregation
block. -/
def dispatchRun (env : DispatchEnv) : DispatchResult :=
  if env.params.prompt = "" then
    ⟨.response true "prompt is required", env.store, emptyTrace⟩
  else if env.params.agentName = "" then
    ⟨.response true "agent_name is required. Check the tool description for available agents.",
      env.store, emptyTrace⟩
  else if ¬ env.agentNames.contains env.params.agentName then
    ⟨.response true ("agent \x27" ++ env.params.agentName ++
        "\x27 not found. Available agents: [" ++ joinSep " " env.agentNames ++ "]"),
      env.store, emptyTrace⟩
  else if env.sessionID = "" ∨ env.messageID = "" then
    ⟨.hardError "session_id and message_id are required", env.store, emptyTrace⟩
  else
    let sessionTitle :=
      match lookupStr env.agentConfigs env.params.agentName with
      | some cfg => if cfg.name ≠ "" then cfg.name else FormatAgentName env.params.agentName
      | none => FormatAgentName env.params.agentName
    if ¬ env.createOk then
      ⟨.hardError "error creating session", env.store, emptyTrace⟩
    else
      let child : Session := ⟨env.childSessionID, env.sessionID, sessionTitle, 0⟩
      let store1 := storeSave env.store child
      let tr : Trace := ⟨1, true, 0, 0⟩
      if ¬ env.runOk then
        ⟨.hardError "error generating agent", store1, tr⟩
      else
        match env.event with
        | .timeout =>
          ⟨.hardError ("sub-agent timed out after " ++
              toString subAgentTimeoutMinutes ++ " minutes"), store1, tr⟩
        | .delivered (some e) _ =>
          ⟨.hardError ("error generating agent: " ++ e), store1, tr⟩
        | .delivered none msg =>
          let store2 := storeSave store1 { child with cost := env.childFinalCost }
          match handleResult msg env.params.agentName with
          | .errResp s => ⟨.response true s, store2, tr⟩
          | .okEarly s => ⟨.response false s, store2, tr⟩
          | .okMain s =>
            match storeGet store2 env.childSessionID with
            | none =>
              ⟨.hardError "error getting session", store2,
                { tr with storeReads := 1 }⟩
            | some updatedChild =>
              match storeGet store2 env.sessionID with
              | none =>
                ⟨.hardError "error getting parent session", store2,
                  { tr with storeReads := 2 }⟩
              | some parent =>
                let parent' := { parent with cost := parent.cost + updatedChild.cost }
                ⟨.response false s, storeSave store2 parent',
                  { tr with storeReads := 2, storeWrites := 1 }⟩

/-! ### Dynamically generated tool metadata (`agentTool.Info`) -/

/-- Default description substituted for agents with an empty description. -/
def defaultAgentDescription : String := "Specialized agent for various tasks"

/-- One line of the agent listing (`"- %s: %s"`). -/
def agentListEntry (name : String) (cfg : AgentConfig) : String :=
  let description :=
    if cfg.description = "" then defaultAgentDescription else cfg.description
  "- " ++ name ++ ": " ++ description

/-- Unsorted agent listing of `Info`: every configured agent except the
top-level `"coder"` and the disabled ones. -/
def infoAgentEntries (configs : List (String × AgentConfig)) : List String :=
  configs.filterMap fun nc =>
    if nc.1 = "coder" then none
    else if nc.2.disabled then none
    else some (agentListEntry nc.1 nc.2)

/-- Go byte-wise string order (`sort.Strings`): for valid UTF-8, byte
order coincides with code-point lexicographic order on the characters. -/
def strDataLe (a b : String) : Prop := a.data ≤ b.data

instance : DecidableRel strDataLe :=
  fun a b => inferInstanceAs (Decidable (a.data ≤ b.data))

instance : IsTrans String strDataLe := ⟨fun _ _ _ h h' => le_trans h h'⟩

instance : IsTotal String strDataLe := ⟨fun a b => le_total a.data b.data⟩

/-- The sorted agent listing of `Info` (`sort.Strings(agentList)`). -/
def infoAgentList (configs : List (String × AgentConfig)) : List String :=
  List.insertionSort strDataLe (infoAgentEntries configs)

/-! ### Concurrent cost aggregation (spec-modelled store, §5/§6)

Modelled from the spec: the session store itself is not among the sources
under study; §6 describes it as plain `Get(id)`/`Save(session)`, each
taken here as an atomic step.  One `CostTxn` is the cost-aggregation
block of `Run` (fetch the parent session, add the child's cost, save the
parent) as executed by one completed dispatch; a schedule interleaves the
atomic steps of two such blocks running concurrently against the same
parent session. -/

/-- One in-flight cost-aggregation block: the child cost it will add, and
the parent session it has read (`none` until its `Get` step ran). -/
structure CostTxn where
  childCost : Int
  readSession : Option Session
deriving DecidableEq

/-- One atomic step of a cost-aggregation block: first step performs the
`Get` of the parent session, second step performs the
`parent.Cost += child.Cost; Save(parent)` write-back. -/
def costTxnStep (pid : String) (store : SessionStore) (t : CostTxn) :
    SessionStore × CostTxn :=
  match t.readSession with
  | none => (store, { t with readSession := storeGet store pid })
  | some p =>
    (storeSave store { p with cost := p.cost + t.childCost }, t)

/-- Run a schedule of two concurrent cost-aggregation blocks: `false`
steps the first transaction, `true` the second. -/
def runCostSchedule (pid : String) : List Bool → SessionStore → CostTxn → CostTxn →
    SessionStore
  | [], store, _, _ => store
  | b :: rest, store, t0, t1 =>
    if b then
      let (store', t1') := costTxnStep pid store t1
      runCostSchedule pid rest store' t0 t1'
    else
      let (store', t0') := costTxnStep pid store t0
      runCostSchedule pid rest store' t0' t1

/-! ### Auxiliary accessors and concrete example values -/

/-- Content string carried by a recovery outcome. -/
def RecoveryOutcome.content : RecoveryOutcome → String
  | .errResp s => s
  | .okEarly s => s
  | .okMain s => s

/-- Specification-side extractor for the non-assistant scan: the content
of a successful tool-result part with nonempty content. -/
def goodToolContent : ContentPart → Option String
  | .toolResult tr => if !tr.isError && tr.content ≠ "" then some tr.content else none
  | _ => none

/-- Example raw result: assistant message whose declared finish reason is
`canceled`. -/
def msgCanceledEx : Message := ⟨roleAssistant, [], "canceled"⟩

/-- Example raw result: non-assistant, non-tool producer role carrying a
successful tool-result part with nonempty content. -/
def msgUserWithToolResultEx : Message :=
  ⟨"user", [.toolResult ⟨"grep", "X", false⟩], "end_turn"⟩

/-- Example raw result: assistant message with direct text content. -/
def msgTextEx : Message := ⟨roleAssistant, [.text "All done."], "end_turn"⟩

/-- Example dispatch environment: well-formed call of agent `rev` whose
execution is delivered with finish reason `canceled`, against a parent
session of cost 5 and a child execution cost of 3. -/
def envCanceledEx : DispatchEnv :=
  { params := ⟨"do it", "rev"⟩
    agentNames := ["rev"]
    agentConfigs := [("rev", ⟨"Reviewer", "reviews code", false⟩)]
    sessionID := "parent"
    messageID := "m1"
    callID := "c1"
    store := [⟨"parent", "", "Root", 5⟩]
    childSessionID := "child"
    createOk := true
    runOk := true
    event := .delivered none msgCanceledEx
    childFinalCost := 3
    callerCanceled := false }

/-- Example dispatch environment: same call, but the completion channel
delivers a successful assistant text response. -/
def envTextEx : DispatchEnv :=
  { envCanceledEx with event := .delivered none msgTextEx }

/-- Example dispatch environment: same call, but the completion channel
delivers a tool-role result whose only content is a successful
tool-result part `X` (the early non-assistant success path). -/
def envToolResultEx : DispatchEnv :=
  { envCanceledEx with
      event := .delivered none
        ⟨roleTool, [.toolResult ⟨"grep", "X", false⟩], "end_turn"⟩ }

/-- Example dispatch environment: the bounding context fires before the
channel delivers. -/
def envTimeoutEx : DispatchEnv :=
  { envCanceledEx with event := .timeout }

/-- Example dispatch environment: empty prompt. -/
def envEmptyPromptEx : DispatchEnv :=
  { envCanceledEx with params := ⟨"", "rev"⟩ }

/-- Example dispatch environment: empty agent name. -/
def envEmptyAgentEx : DispatchEnv :=
  { envCanceledEx with params := ⟨"do it", ""⟩ }

/-- Example frontmatter: `mcp_servers` given as a comma-separated string
while `tools` is absent. -/
def fmMcpStringEx : Frontmatter :=
  ⟨some "a", some "d", .absent, .scalar "srv1, srv2", .absent⟩

/-- Example user-scope files: two well-formed definitions of the same
agent name `a`, in directory order. -/
def dupUserFilesEx : List (Frontmatter × String) :=
  [(⟨some "a", some "first", .absent, .absent, .absent⟩, "body one"),
   (⟨some "a", some "second", .absent, .absent, .absent⟩, "body two")]

/-- Example store for the concurrency model: one parent session of
cost 0. -/
def raceStoreEx : SessionStore := [⟨"p", "", "Root", 0⟩]

/-- The lost-update interleaving: both blocks `Get` the parent before
either `Save`s it. -/
def lostUpdateSchedule : List Bool := [false, true, false, true]

/-- A serialized schedule: the first block completes before the second
starts. -/
def serialSchedule : List Bool := [false, false, true, true]

/-- Example agent-configuration map for the tool-metadata claims. -/
def configsEx : List (String × AgentConfig) :=
  [("coder", ⟨"Coder", "the top-level coding agent", false⟩),
   ("rev", ⟨"Reviewer", "", false⟩),
   ("dbg", ⟨"Debugger", "finds bugs", true⟩),
   ("aud", ⟨"Auditor", "audits", false⟩)]

/-! ### Helper lemmas -/

/-- Strings with equal character data are equal. -/
theorem str_ext {s t : String} (h : s.data = t.data) : s = t := by
  cases s; cases t; exact congrArg String.mk h

/-- A nonempty string stays nonempty under right-append. -/
theorem append_right_ne_empty {s : String} (h : s ≠ "") (t : String) :
    s ++ t ≠ "" := by
  intro hc
  have hd : (s ++ t).data = [] := by rw [hc]
  rw [String.data_append] at hd
  exact h (str_ext (List.append_eq_nil.mp hd).1)

/-- Reading back from a saved store. -/
theorem storeGet_storeSave (st : SessionStore) (s : Session) (i : String) :
    storeGet (storeSave st s) i = if s.id = i then some s else storeGet st i := by
  induction st with
  | nil => simp only [storeSave, storeGet]
  | cons t rest ih =>
    simp only [storeSave]
    by_cases ht : t.id = s.id
    · rw [if_pos ht]
      simp only [storeGet]
      by_cases hi : s.id = i
      · rw [if_pos hi, if_pos hi]
      · have hti : ¬ t.id = i := by rw [ht]; exact hi
        rw [if_neg hi, if_neg hi, if_neg hti]
    · rw [if_neg ht]
      simp only [storeGet]
      by_cases hi : t.id = i
      · have hsi : ¬ s.id = i := fun hc => ht (hi.trans hc.symm)
        rw [if_pos hi, if_neg hsi, if_pos hi]
      · rw [if_neg hi, ih]
        by_cases hsi : s.id = i
        · rw [if_pos hsi, if_pos hsi]
        · rw [if_neg hsi, if_neg hsi, if_neg hi]

/-- Lookup after a registry update. -/
theorem findAgent_upsert (r : Registry) (n : String) (a : AgentDefinition)
    (m : String) :
    findAgent (upsert r n a) m = if n = m then some a else findAgent r m := by
  induction r with
  | nil => simp only [upsert, findAgent]
  | cons kv rest ih =>
    obtain ⟨k, v⟩ := kv
    simp only [upsert]
    by_cases hk : k = n
    · rw [if_pos hk]
      simp only [findAgent]
      by_cases hm : n = m
      · rw [if_pos hm, if_pos hm]
      · have hkm : ¬ k = m := by rw [hk]; exact hm
        rw [if_neg hm, if_neg hm, if_neg hkm]
    · rw [if_neg hk]
      simp only [findAgent]
      by_cases hm : k = m
      · have hnm : ¬ n = m := fun hc => hk (hm.trans hc.symm)
        rw [if_pos hm, if_neg hnm, if_pos hm]
      · rw [if_neg hm, ih]
        by_cases hnm : n = m
        · rw [if_pos hnm, if_pos hnm]
        · rw [if_neg hnm, if_neg hnm, if_neg hm]

/-- The non-assistant scan only returns nonempty contents. -/
theorem firstGoodToolResult_ne_empty :
    ∀ {l : List ContentPart} {c : String}, firstGoodToolResult l = some c → c ≠ "" := by
  intro l
  induction l with
  | nil => intro c h; simp [firstGoodToolResult] at h
  | cons p rest ih =>
    intro c h
    match p with
    | .text t => exact ih (by simpa [firstGoodToolResult] using h)
    | .reasoning t => exact ih (by simpa [firstGoodToolResult] using h)
    | .toolCall tc => exact ih (by simpa [firstGoodToolResult] using h)
    | .toolResult tr =>
      simp only [firstGoodToolResult] at h
      split at h
      next hg =>
        cases h
        exact of_decide_eq_true ((Bool.and_eq_true _ _).mp hg).2
      next => exact ih h

/-- The non-assistant scan returns the first successful tool-result part
with nonempty content. -/
theorem firstGoodToolResult_eq_head (l : List ContentPart) :
    firstGoodToolResult l = (l.filterMap goodToolContent).head? := by
  induction l with
  | nil => simp [firstGoodToolResult]
  | cons p rest ih =>
    match p with
    | .text t => simpa [firstGoodToolResult, goodToolContent] using ih
    | .reasoning t => simpa [firstGoodToolResult, goodToolContent] using ih
    | .toolCall tc => simpa [firstGoodToolResult, goodToolContent] using ih
    | .toolResult tr =>
      simp only [firstGoodToolResult, goodToolContent, List.filterMap_cons]
      by_cases hg : (!tr.isError && decide (tr.content ≠ "")) = true
      · rw [if_pos hg, if_pos hg]
        simp
      · rw [if_neg hg, if_neg hg]
        simpa using ih

/-- The final recovery validation never lets an empty content through. -/
theorem validatedRecovery_content_ne (a c : String) :
    (validatedRecovery a c).content ≠ "" := by
  simp only [validatedRecovery]
  by_cases h : c = "" ∨ trimSpace c = ""
  · rw [if_pos h]
    simp only [RecoveryOutcome.content, recoveryFailedMsg]
    exact append_right_ne_empty (append_right_ne_empty (by decide) a) _
  · rw [if_neg h]
    simp only [RecoveryOutcome.content]
    exact fun hc => h (Or.inl hc)

/-- Every outcome of the empty-content recovery chain carries a nonempty
content string. -/
theorem recoverEmptyContent_content_ne (m : Message) (a : String) :
    (recoverEmptyContent m a).content ≠ "" := by
  simp only [recoverEmptyContent]
  split
  · exact validatedRecovery_content_ne _ _
  · split
    · exact validatedRecovery_content_ne _ _
    · split
      · exact validatedRecovery_content_ne _ _
      · split
        · exact validatedRecovery_content_ne _ _
        · split
          · exact validatedRecovery_content_ne _ _
          · simp only [RecoveryOutcome.content, noOutputMsg]
            exact append_right_ne_empty (append_right_ne_empty (by decide) a) _

/-- Every outcome of the result-handling chain carries a nonempty content
string. -/
theorem handleResult_content_ne (m : Message) (a : String) :
    (handleResult m a).content ≠ "" := by
  simp only [handleResult]
  split
  · simp only [RecoveryOutcome.content]
    split
    · decide
    · decide
  · split
    · split
      · cases hg : firstGoodToolResult m.parts with
        | some c =>
          simp only [hg, RecoveryOutcome.content]
          exact firstGoodToolResult_ne_empty hg
        | none =>
          simp only [hg, RecoveryOutcome.content]
          decide
      · simp only [RecoveryOutcome.content]
        decide
    · split
      next h =>
        simpa only [RecoveryOutcome.content] using h
      next => exact recoverEmptyContent_content_ne m a

/-! ### Loader characterisation lemmas -/

/-- Unfolding of the last well-formed definition over one more file. -/
theorem lastDef_cons (f : Frontmatter × String) (fs : List (Frontmatter × String))
    (n : String) :
    lastDef (f :: fs) n =
      match parseAgentMarkdown f.1 f.2 with
      | none => lastDef fs n
      | some a =>
        match lastDef fs n with
        | some b => some b
        | none => if a.name = n then some a else none := by
  simp only [lastDef, List.filterMap_cons]
  cases parseAgentMarkdown f.1 f.2 <;> simp [lastNamed]

/-- A priority insert always stores the (priority-stamped) definition. -/
theorem insertAgent_true (r : Registry) (a : AgentDefinition) :
    insertAgent r a true = upsert r a.name { a with isPriority := true } := by
  simp only [insertAgent]
  cases findAgent r a.name with
  | none => rfl
  | some existing => simp

/-- A registry all of whose entries are non-priority. -/
def nonPriorityReg (r : Registry) : Prop :=
  ∀ n a, findAgent r n = some a → a.isPriority = false

/-- Into an all-non-priority registry, a non-priority insert also always
stores the definition (the Go condition `!existing.IsPriority` holds). -/
theorem insertAgent_false (r : Registry) (a : AgentDefinition)
    (hr : nonPriorityReg r) :
    insertAgent r a false = upsert r a.name { a with isPriority := false } := by
  simp only [insertAgent]
  cases h : findAgent r a.name with
  | none => rfl
  | some existing => simp [hr _ _ h]

/-- Updating with a non-priority definition preserves the all-non-priority
invariant. -/
theorem nonPriorityReg_upsert (r : Registry) (n : String) (a : AgentDefinition)
    (hr : nonPriorityReg r) (ha : a.isPriority = false) :
    nonPriorityReg (upsert r n a) := by
  intro m b h
  rw [findAgent_upsert] at h
  by_cases hm : n = m
  · rw [if_pos hm] at h
    cases h
    exact ha
  · rw [if_neg hm] at h
    exact hr _ _ h

/-- Project-scope (priority) load: the last well-formed project definition
of a name wins; names not defined there keep the incoming registry's
entry. -/
theorem loadDir_priority_find (fs : List (Frontmatter × String)) (r : Registry)
    (n : String) :
    findAgent (loadAgentsFromDir fs r true) n =
      match lastDef fs n with
      | some a => some { a with isPriority := true }
      | none => findAgent r n := by
  induction fs generalizing r with
  | nil => simp [loadAgentsFromDir, lastDef, lastNamed]
  | cons f fs ih =>
    cases hp : parseAgentMarkdown f.1 f.2 with
    | none =>
      simp only [loadAgentsFromDir, lastDef_cons, hp]
      rw [ih]
    | some a =>
      simp only [loadAgentsFromDir, lastDef_cons, hp]
      rw [ih, insertAgent_true, findAgent_upsert]
      cases hl : lastDef fs n with
      | some b => rfl
      | none =>
        simp only
        by_cases hn : a.name = n
        · rw [if_pos hn, if_pos hn]
        · rw [if_neg hn, if_neg hn]

/-- User-scope (non-priority) load into an all-non-priority registry: the
last well-formed user definition of a name wins; names not defined there
keep the incoming registry's entry. -/
theorem loadDir_user_find (fs : List (Frontmatter × String)) (r : Registry)
    (n : String) (hr : nonPriorityReg r) :
    findAgent (loadAgentsFromDir fs r false) n =
      match lastDef fs n with
      | some a => some { a with isPriority := false }
      | none => findAgent r n := by
  induction fs generalizing r with
  | nil => simp [loadAgentsFromDir, lastDef, lastNamed]
  | cons f fs ih =>
    cases hp : parseAgentMarkdown f.1 f.2 with
    | none =>
      simp only [loadAgentsFromDir, lastDef_cons, hp]
      rw [ih r hr]
    | some a =>
      simp only [loadAgentsFromDir, lastDef_cons, hp]
      rw [insertAgent_false r a hr,
        ih _ (nonPriorityReg_upsert r a.name _ hr rfl), findAgent_upsert]
      cases hl : lastDef fs n with
      | some b => rfl
      | none =>
        simp only
        by_cases hn : a.name = n
        · rw [if_pos hn, if_pos hn]
        · rw [if_neg hn, if_neg hn]

/-- The user-scope phase starting from the empty registry yields an
all-non-priority registry. -/
theorem nonPriorityReg_empty : nonPriorityReg [] := by
  intro n a h
  simp [findAgent] at h

/-- Content of a controlled-error classification is nonempty. -/
theorem errResp_content_ne {m : Message} {a s : String}
    (h : handleResult m a = .errResp s) : s ≠ "" := by
  have hne := handleResult_content_ne m a
  rw [h] at hne
  simpa [RecoveryOutcome.content] using hne

/-- Content of an early success classification is nonempty. -/
theorem okEarly_content_ne {m : Message} {a s : String}
    (h : handleResult m a = .okEarly s) : s ≠ "" := by
  have hne := handleResult_content_ne m a
  rw [h] at hne
  simpa [RecoveryOutcome.content] using hne

/-- Content of a main-path success classification is nonempty. -/
theorem okMain_content_ne {m : Message} {a s : String}
    (h : handleResult m a = .okMain s) : s ≠ "" := by
  have hne := handleResult_content_ne m a
  rw [h] at hne
  simpa [RecoveryOutcome.content] using hne

/-! ### The claims -/

/-- C1: for every raw result delivered on the completion channel, the
dispatch operation terminates with either a textual response whose
content is a nonempty string (a success or a controlled error) or a
propagated hard error; no path returns an empty string as a successful
outcome. -/
theorem claim_C1_no_empty_outcome (env : DispatchEnv) (err : Option String)
    (m : Message) (_h : env.event = .delivered err m) :
    (∃ e, (dispatchRun env).outcome = .hardError e) ∨
    (∃ b s, (dispatchRun env).outcome = .response b s ∧ s ≠ "") := by
  clear _h
  cases ho : (dispatchRun env).outcome with
  | hardError e => exact Or.inl ⟨e, rfl⟩
  | response b s =>
    refine Or.inr ⟨b, s, rfl, ?_⟩
    simp only [dispatchRun] at ho
    repeat' split at ho
    all_goals first
      | exact Outcome.noConfusion ho
      | (injection ho with h1 h2
         subst h2
         first
           | decide
           | exact errResp_content_ne (by assumption)
           | exact okEarly_content_ne (by assumption)
           | exact okMain_content_ne (by assumption)
           | exact append_right_ne_empty
               (append_right_ne_empty
                 (append_right_ne_empty (append_right_ne_empty (by decide) _) _) _) _)

/-- Closed witness for C1: the canceled example delivery resolves to the
fixed nonempty interruption text. -/
theorem claim_C1_witness :
    (∃ e, (dispatchRun envCanceledEx).outcome = .hardError e) ∨
    (∃ b s, (dispatchRun envCanceledEx).outcome = .response b s ∧ s ≠ "") :=
  claim_C1_no_empty_outcome envCanceledEx none msgCanceledEx rfl

/-- A session returned by a store read carries the queried id. -/
theorem storeGet_id_eq :
    ∀ {st : SessionStore} {i : String} {s : Session},
      storeGet st i = some s → s.id = i := by
  intro st
  induction st with
  | nil => intro i s h; simp [storeGet] at h
  | cons t rest ih =>
    intro i s h
    simp only [storeGet] at h
    split at h
    next hti =>
      cases h
      exact hti
    next => exact ih h

/-- C2 counterexample: a dispatch that resolves to a controlled-error
outcome (the canceled interruption text) performs no cost transfer at
all — the child accumulated cost 3, yet the parent session still holds
its original cost 5 and the store saw zero `Save` calls — and likewise a
dispatch that resolves to a *successful* outcome through the
non-assistant tool-result path returns the content `X` with the child's
cost 3 equally unattributed and zero saves. -/
theorem claim_C2_counterexample :
    ((dispatchRun envCanceledEx).outcome =
      .response true "Sub-agent execution was interrupted" ∧
    envCanceledEx.childFinalCost = 3 ∧
    storeGet envCanceledEx.store "parent" = some ⟨"parent", "", "Root", 5⟩ ∧
    storeGet (dispatchRun envCanceledEx).store "parent" =
      some ⟨"parent", "", "Root", 5⟩ ∧
    (dispatchRun envCanceledEx).trace.storeWrites = 0) ∧
    ((dispatchRun envToolResultEx).outcome = .response false "X" ∧
    envToolResultEx.childFinalCost = 3 ∧
    storeGet (dispatchRun envToolResultEx).store "parent" =
      some ⟨"parent", "", "Root", 5⟩ ∧
    (dispatchRun envToolResultEx).trace.storeWrites = 0) := by decide

/-- C2 (amended): whenever a dispatch resolves to a successful outcome
through the final assistant-content path, the child session's accumulated
cost is added to the caller session's cost exactly once (one `Save`),
after the dispatch fully resolves; a controlled-error outcome, and
likewise the non-assistant tool-result success path, returns before the
cost-aggregation block, with no cost transfer and no save. -/
theorem claim_C2_cost_once (env : DispatchEnv) (m : Message) (parent : Session)
    (hp : env.params.prompt ≠ "") (hn : env.params.agentName ≠ "")
    (hin : env.agentNames.contains env.params.agentName = true)
    (hs : env.sessionID ≠ "") (hm : env.messageID ≠ "")
    (hc : env.createOk = true) (hr : env.runOk = true)
    (he : env.event = .delivered none m)
    (hfresh : env.childSessionID ≠ env.sessionID)
    (hparent : storeGet env.store env.sessionID = some parent) :
    (∀ s, handleResult m env.params.agentName = .okMain s →
      (dispatchRun env).outcome = .response false s ∧
      storeGet (dispatchRun env).store env.sessionID =
        some { parent with cost := parent.cost + env.childFinalCost } ∧
      (dispatchRun env).trace.storeWrites = 1) ∧
    (∀ s, handleResult m env.params.agentName = .errResp s →
      (dispatchRun env).outcome = .response true s ∧
      storeGet (dispatchRun env).store env.sessionID = some parent ∧
      (dispatchRun env).trace.storeWrites = 0) ∧
    (∀ s, handleResult m env.params.agentName = .okEarly s →
      (dispatchRun env).outcome = .response false s ∧
      storeGet (dispatchRun env).store env.sessionID = some parent ∧
      (dispatchRun env).trace.storeWrites = 0) := by
  have hpid : parent.id = env.sessionID := storeGet_id_eq hparent
  refine ⟨fun s hok => ?_, fun s herr => ?_, fun s hearly => ?_⟩
  · simp only [dispatchRun, hp, hn, hin, hs, hm, hc, hr, he, hok,
      storeGet_storeSave, hfresh, hparent, if_true, if_false, not_true,
      not_false_iff, or_self, ite_true, ite_false, if_pos rfl]
    simp [storeGet_storeSave, hfresh, hparent, hpid]
  · simp only [dispatchRun, hp, hn, hin, hs, hm, hc, hr, he, herr,
      storeGet_storeSave, hfresh, hparent, if_true, if_false, not_true,
      not_false_iff, or_self, ite_true, ite_false, if_pos rfl]
    simp [storeGet_storeSave, hfresh, hparent]
  · simp only [dispatchRun, hp, hn, hin, hs, hm, hc, hr, he, hearly,
      storeGet_storeSave, hfresh, hparent, if_true, if_false, not_true,
      not_false_iff, or_self, ite_true, ite_false, if_pos rfl]
    simp [storeGet_storeSave, hfresh, hparent]

/-- Closed witness for C2: the successful example dispatch returns the
text outcome, adds the child cost 3 to the parent cost 5 with exactly one
save. -/
theorem claim_C2_witness :
    (dispatchRun envTextEx).outcome = .response false "All done." ∧
    storeGet (dispatchRun envTextEx).store "parent" =
      some ⟨"parent", "", "Root", 8⟩ ∧
    (dispatchRun envTextEx).trace.storeWrites = 1 := by
  have h := (claim_C2_cost_once envTextEx msgTextEx ⟨"parent", "", "Root", 5⟩
    (by decide) (by decide) (by decide) (by decide) (by decide) (by decide)
    (by decide) rfl (by decide) (by decide)).1 "All done." (by decide)
  exact ⟨h.1, h.2.1, h.2.2⟩

/-- C3 counterexample: two well-formed user-scope files define the same
agent name `a` (descriptions `first` and `second` in load order); the
registry keeps the second — the last-loaded equal-priority duplicate, not
the first-loaded one. -/
theorem claim_C3_counterexample :
    (dupUserFilesEx.map fun f => (parseAgentMarkdown f.1 f.2).map AgentDefinition.name)
      = [some "a", some "a"] ∧
    (dupUserFilesEx.map fun f => (parseAgentMarkdown f.1 f.2).map AgentDefinition.description)
      = [some "first", some "second"] ∧
    (findAgent (loadAgentDefinitions dupUserFilesEx []) "a").map
      AgentDefinition.description = some "second" := by decide

/-- C3 (amended): user-scope files load first (non-priority), then
project-scope files (priority); a project-level definition always wins
over a user-level one, and among duplicate definitions of equal priority
the last-loaded definition is the one kept. -/
theorem claim_C3_merge_policy (u p : List (Frontmatter × String)) (n : String) :
    findAgent (loadAgentDefinitions u p) n =
      match lastDef p n with
      | some a => some { a with isPriority := true }
      | none =>
        match lastDef u n with
        | some a => some { a with isPriority := false }
        | none => none := by
  rw [loadAgentDefinitions, loadDir_priority_find]
  cases lastDef p n with
  | some a => rfl
  | none =>
    rw [loadDir_user_find _ _ _ nonPriorityReg_empty]
    cases lastDef u n with
    | some a => rfl
    | none => simp [findAgent]

/-- C4: an empty declared finish reason is inferred as `tool_use` when
tool-call requests are pending, else `end_turn` when direct text is
nonempty, else `canceled`; and a declared-or-inferred `canceled` or
`error` reason returns the corresponding fixed controlled-error text,
with no further recovery step. -/
theorem claim_C4_finish_reason_policy :
    (∀ m : Message, m.finishReason = "" →
      (m.toolCalls ≠ [] → effectiveFinishReason m = finishReasonToolUse) ∧
      (m.toolCalls = [] → m.contentString ≠ "" →
        effectiveFinishReason m = finishReasonEndTurn) ∧
      (m.toolCalls = [] → m.contentString = "" →
        effectiveFinishReason m = finishReasonCanceled)) ∧
    (∀ (m : Message) (a : String),
      effectiveFinishReason m = finishReasonCanceled →
      handleResult m a = .errResp "Sub-agent execution was interrupted") ∧
    (∀ (m : Message) (a : String),
      effectiveFinishReason m = finishReasonError →
      handleResult m a = .errResp "Sub-agent encountered an error") := by
  refine ⟨fun m h => ⟨fun htc => ?_, fun htc hcs => ?_, fun htc hcs => ?_⟩,
    fun m a h => ?_, fun m a h => ?_⟩
  · simp [effectiveFinishReason, h, List.length_pos, htc]
  · simp [effectiveFinishReason, h, htc, hcs]
  · simp [effectiveFinishReason, h, htc, hcs]
  · simp [handleResult, h, finishReasonCanceled, finishReasonError]
  · simp [handleResult, h, finishReasonCanceled, finishReasonError]

/-- Closed witness for C4: the empty assistant result with empty declared
reason is inferred as canceled and yields the fixed interruption text. -/
theorem claim_C4_witness :
    handleResult ⟨roleAssistant, [], ""⟩ "rev" =
      .errResp "Sub-agent execution was interrupted" :=
  claim_C4_finish_reason_policy.2.1 ⟨roleAssistant, [], ""⟩ "rev" (by decide)

/-- C5 counterexample: a raw result that is not classified
canceled/error, whose producer role (`user`) is not the assistant role,
and which carries a successful tool-result part with nonempty content
`X`; the recovery engine does not scan it, returning the controlled
error instead of the content. -/
theorem claim_C5_counterexample :
    effectiveFinishReason msgUserWithToolResultEx = finishReasonEndTurn ∧
    msgUserWithToolResultEx.role ≠ roleAssistant ∧
    firstGoodToolResult msgUserWithToolResultEx.parts = some "X" ∧
    handleResult msgUserWithToolResultEx "rev" ≠ .okEarly "X" ∧
    handleResult msgUserWithToolResultEx "rev" =
      .errResp "Sub-agent did not produce a valid response" := by decide

/-- C5 (amended): for a result not classified canceled/error, the scan
for a successful nonempty tool-result part happens only when the producer
role is the tool role (returning the first such content, else the
controlled error); any other non-assistant role returns the controlled
error without scanning. -/
theorem claim_C5_tool_role_scan :
    (∀ (m : Message) (a : String),
      effectiveFinishReason m ≠ finishReasonCanceled →
      effectiveFinishReason m ≠ finishReasonError →
      (m.role = roleTool →
        handleResult m a =
          match firstGoodToolResult m.parts with
          | some c => .okEarly c
          | none => .errResp "Sub-agent did not produce a valid response") ∧
      (m.role ≠ roleAssistant → m.role ≠ roleTool →
        handleResult m a = .errResp "Sub-agent did not produce a valid response")) ∧
    (∀ parts : List ContentPart,
      firstGoodToolResult parts = (parts.filterMap goodToolContent).head?) := by
  constructor
  · intro m a h1 h2
    constructor
    · intro hrole
      simp [handleResult, h1, h2, hrole, roleTool, roleAssistant]
    · intro hra hrt
      simp [handleResult, h1, h2, hra, hrt]
  · exact firstGoodToolResult_eq_head

/-- Closed witness for C5: a tool-role result with a successful nonempty
tool-result part returns that content as a success. -/
theorem claim_C5_witness :
    handleResult ⟨roleTool, [.toolResult ⟨"grep", "X", false⟩], "end_turn"⟩ "rev" =
      .okEarly "X" := by
  have h := ((claim_C5_tool_role_scan.1
    ⟨roleTool, [.toolResult ⟨"grep", "X", false⟩], "end_turn"⟩ "rev"
    (by decide) (by decide)).1 rfl)
  exact h.trans (by decide)

/-- String-form parse: with all three allow-list fields scalar and a
nonempty tools string, the file is accepted and each field is
comma-split. -/
theorem parseAgentMarkdown_strings (n d st sm sl body : String)
    (hn : n ≠ "") (hd : d ≠ "") (hb : trimSpace body ≠ "") (hst : st ≠ "") :
    parseAgentMarkdown ⟨some n, some d, .scalar st, .scalar sm, .scalar sl⟩ body =
      some ⟨n, d, optList (splitComma st), optList (splitComma sm),
        optList (splitComma sl), trimSpace body, false⟩ := by
  simp [parseAgentMarkdown, unmarshalStringForm, YamlField.asString,
    validateAgent, hn, hd, hb, hst]

/-- List-form parse: with all three allow-list fields native lists, the
file is accepted and each list is taken verbatim. -/
theorem parseAgentMarkdown_lists (n d body : String) (lt lm ll : List String)
    (hn : n ≠ "") (hd : d ≠ "") (hb : trimSpace body ≠ "") :
    parseAgentMarkdown ⟨some n, some d, .list lt, .list lm, .list ll⟩ body =
      some ⟨n, d, some lt, some lm, some ll, trimSpace body, false⟩ := by
  simp [parseAgentMarkdown, unmarshalStringForm, parseListForm,
    YamlField.asString, YamlField.asList, validateAgent, hn, hd, hb]

/-- Absent allow-list fields parse to the nil (inherit-all) value. -/
theorem parseAgentMarkdown_absent (n d body : String)
    (hn : n ≠ "") (hd : d ≠ "") (hb : trimSpace body ≠ "") :
    parseAgentMarkdown ⟨some n, some d, .absent, .absent, .absent⟩ body =
      some ⟨n, d, none, none, none, trimSpace body, false⟩ := by
  simp [parseAgentMarkdown, unmarshalStringForm, parseListForm,
    YamlField.asString, YamlField.asList, validateAgent, hn, hd, hb]

/-- A scalar `mcp_servers` with an absent `tools` field is always
rejected: the string pass is discarded because tools is empty, and the
list pass fails on the scalar. -/
theorem parseAgentMarkdown_mcp_scalar_reject (n d sm body : String) :
    parseAgentMarkdown ⟨some n, some d, .absent, .scalar sm, .absent⟩ body = none := by
  simp [parseAgentMarkdown, unmarshalStringForm, parseListForm,
    YamlField.asString, YamlField.asList]

/-- C6 counterexample: a frontmatter with required fields present and
`mcp_servers` given as the comma-separated string `"srv1, srv2"` (tools
absent) is rejected, while the same content in native-list form parses;
the comma-separated form is therefore not always accepted. -/
theorem claim_C6_counterexample :
    parseAgentMarkdown fmMcpStringEx "body" = none ∧
    parseAgentMarkdown ⟨some "a", some "d", .absent, .list ["srv1", "srv2"], .absent⟩ "body" =
      some ⟨"a", "d", none, some ["srv1", "srv2"], none, "body", false⟩ := by decide

/-- C6 (amended): the three allow-list fields are accepted either all in
comma-separated string form with a nonempty `tools` string (entries
trimmed, empty entries dropped) or all in native-list form; for
corresponding nonempty entries the two forms yield the same parsed
definition; absent fields yield the nil inherit-all value, never an empty
list; and an `mcp_servers` comma-string without a nonempty string `tools`
is rejected. -/
theorem claim_C6_field_forms :
    (∀ n d st sm sl body : String, n ≠ "" → d ≠ "" → trimSpace body ≠ "" → st ≠ "" →
      parseAgentMarkdown ⟨some n, some d, .scalar st, .scalar sm, .scalar sl⟩ body =
        some ⟨n, d, optList (splitComma st), optList (splitComma sm),
          optList (splitComma sl), trimSpace body, false⟩) ∧
    (∀ (n d body : String) (lt lm ll : List String),
      n ≠ "" → d ≠ "" → trimSpace body ≠ "" →
      parseAgentMarkdown ⟨some n, some d, .list lt, .list lm, .list ll⟩ body =
        some ⟨n, d, some lt, some lm, some ll, trimSpace body, false⟩) ∧
    (∀ n d st sm sl body : String, n ≠ "" → d ≠ "" → trimSpace body ≠ "" → st ≠ "" →
      splitComma st ≠ [] → splitComma sm ≠ [] → splitComma sl ≠ [] →
      parseAgentMarkdown ⟨some n, some d, .scalar st, .scalar sm, .scalar sl⟩ body =
        parseAgentMarkdown ⟨some n, some d, .list (splitComma st),
          .list (splitComma sm), .list (splitComma sl)⟩ body) ∧
    (∀ n d body : String, n ≠ "" → d ≠ "" → trimSpace body ≠ "" →
      parseAgentMarkdown ⟨some n, some d, .absent, .absent, .absent⟩ body =
        some ⟨n, d, none, none, none, trimSpace body, false⟩) ∧
    (∀ n d sm body : String,
      parseAgentMarkdown ⟨some n, some d, .absent, .scalar sm, .absent⟩ body = none) := by
  refine ⟨parseAgentMarkdown_strings, parseAgentMarkdown_lists,
    fun n d st sm sl body hn hd hb hst h1 h2 h3 => ?_,
    parseAgentMarkdown_absent, parseAgentMarkdown_mcp_scalar_reject⟩
  rw [parseAgentMarkdown_strings n d st sm sl body hn hd hb hst,
    parseAgentMarkdown_lists n d body _ _ _ hn hd hb]
  simp [optList, h1, h2, h3]

/-- Closed witness for C6: `tools: "view, grep"` and `tools:
[view, grep]` both parse to the allow-list `[view, grep]`, and absent
fields stay nil. -/
theorem claim_C6_witness :
    parseAgentMarkdown ⟨some "code-reviewer", some "Expert code review specialist",
        .scalar "view, grep", .scalar "a", .scalar "b"⟩ "prompt" =
      some ⟨"code-reviewer", "Expert code review specialist", some ["view", "grep"],
        some ["a"], some ["b"], "prompt", false⟩ := by
  have h := claim_C6_field_forms.1 "code-reviewer" "Expert code review specialist"
    "view, grep" "a" "b" "prompt" (by decide) (by decide) (by decide) (by decide)
  exact h.trans (by decide)

/-- C7: an empty prompt returns the validation error text
`prompt is required` before any other effect (store untouched, no task
session created, no store read or write, agent service not invoked); a
nonempty prompt with an empty agent name likewise returns the
agent-name-required error with no effect. -/
theorem claim_C7_validation (env : DispatchEnv) :
    (env.params.prompt = "" →
      dispatchRun env =
        ⟨.response true "prompt is required", env.store, emptyTrace⟩) ∧
    (env.params.prompt ≠ "" → env.params.agentName = "" →
      dispatchRun env =
        ⟨.response true "agent_name is required. Check the tool description for available agents.",
          env.store, emptyTrace⟩) := by
  constructor
  · intro h
    simp [dispatchRun, h]
  · intro h1 h2
    simp [dispatchRun, h1, h2]

/-- Closed witness for C7: the empty-prompt example call returns the
validation error and leaves the world untouched. -/
theorem claim_C7_witness :
    dispatchRun envEmptyPromptEx =
      ⟨.response true "prompt is required", envEmptyPromptEx.store, emptyTrace⟩ :=
  (claim_C7_validation envEmptyPromptEx).1 (by decide)

/-- C8: when the independent 30-minute bounding context fires before the
completion channel delivers, the dispatch fails with the hard timeout
error; the parent session entry is unchanged, and the cost-aggregation
block performs no store read or write.  The bounding context is built
from a fresh background context, so the result is independent of whether
the caller's own context was cancelled. -/
theorem claim_C8_timeout (env : DispatchEnv)
    (hp : env.params.prompt ≠ "") (hn : env.params.agentName ≠ "")
    (hin : env.agentNames.contains env.params.agentName = true)
    (hs : env.sessionID ≠ "") (hm : env.messageID ≠ "")
    (hc : env.createOk = true) (hr : env.runOk = true)
    (ht : env.event = .timeout)
    (hfresh : env.childSessionID ≠ env.sessionID) :
    (dispatchRun env).outcome =
      .hardError ("sub-agent timed out after " ++
        toString subAgentTimeoutMinutes ++ " minutes") ∧
    storeGet (dispatchRun env).store env.sessionID =
      storeGet env.store env.sessionID ∧
    (dispatchRun env).trace.storeReads = 0 ∧
    (dispatchRun env).trace.storeWrites = 0 ∧
    (∀ b, dispatchRun { env with callerCanceled := b } = dispatchRun env) := by
  have hmem : env.params.agentName ∈ env.agentNames := by simpa using hin
  refine ⟨?_, ?_, ?_, ?_, fun b => rfl⟩ <;>
    simp [dispatchRun, hp, hn, hin, hmem, hs, hm, hc, hr, ht,
      storeGet_storeSave, hfresh]

/-- Closed witness for C8: the example timeout dispatch fails hard and
leaves the parent session at its original cost. -/
theorem claim_C8_witness :
    (dispatchRun envTimeoutEx).outcome =
      .hardError ("sub-agent timed out after " ++
        toString subAgentTimeoutMinutes ++ " minutes") ∧
    storeGet (dispatchRun envTimeoutEx).store "parent" =
      storeGet envTimeoutEx.store "parent" := by
  have h := claim_C8_timeout envTimeoutEx (by decide) (by decide) (by decide)
    (by decide) (by decide) (by decide) (by decide) rfl (by decide)
  exact ⟨h.1, h.2.1⟩

/-- C9: the cost-aggregation block is a plain get-then-save; under the
interleaved schedule in which both concurrent dispatch completions `Get`
the parent (cost 0) before either `Save`s, the first child's cost 1 is
lost: the parent ends at cost 2, not at the serialized sum 3 that the
claim requires for every completion order. -/
theorem claim_C9_lost_update :
    (storeGet (runCostSchedule "p" serialSchedule raceStoreEx ⟨1, none⟩ ⟨2, none⟩) "p").map
      Session.cost = some 3 ∧
    (storeGet (runCostSchedule "p" lostUpdateSchedule raceStoreEx ⟨1, none⟩ ⟨2, none⟩) "p").map
      Session.cost = some 2 ∧
    (2 : Int) ≠ 0 + 1 + 2 := by decide

/-- C10: for every agent-configuration map, the generated tool metadata
lists exactly the agents that are neither named `coder` nor disabled,
each rendered as `- name: description` with the fixed default description
substituted when the configured description is empty, and the listing is
sorted (Go byte-wise string order). -/
theorem claim_C10_info_listing (configs : List (String × AgentConfig)) :
    (infoAgentList configs).Sorted strDataLe ∧
    (infoAgentList configs).Perm (infoAgentEntries configs) ∧
    (∀ (n : String) (c : AgentConfig), (n, c) ∈ configs → n ≠ "coder" →
      c.disabled = false → agentListEntry n c ∈ infoAgentList configs) ∧
    (∀ s, s ∈ infoAgentList configs →
      ∃ n c, (n, c) ∈ configs ∧ n ≠ "coder" ∧ c.disabled = false ∧
        s = agentListEntry n c) ∧
    (∀ (n : String) (c : AgentConfig), c.description = "" →
      agentListEntry n c = "- " ++ n ++ ": " ++ defaultAgentDescription) := by
  refine ⟨List.sorted_insertionSort _ _, List.perm_insertionSort _ _,
    fun n c hmem hnc hnd => ?_, fun s hs => ?_, fun n c h => ?_⟩
  · exact (List.perm_insertionSort _ _).mem_iff.mpr
      (List.mem_filterMap.mpr ⟨(n, c), hmem, by simp [hnc, hnd]⟩)
  · obtain ⟨nc, hmem, heq⟩ :=
      List.mem_filterMap.mp ((List.perm_insertionSort _ _).mem_iff.mp hs)
    by_cases h1 : nc.1 = "coder"
    · simp [h1] at heq
    · by_cases h2 : nc.2.disabled = true
      · simp [h1, h2] at heq
      · refine ⟨nc.1, nc.2, hmem, h1, by simpa using h2, ?_⟩
        simp only [h1, h2] at heq
        simp at heq
        exact heq.symm
  · simp [agentListEntry, h]

/-- Closed witness for C10: in the example configuration, the enabled
non-coder agent with empty description is listed with the default
description. -/
theorem claim_C10_witness :
    agentListEntry "rev" ⟨"Reviewer", "", false⟩ ∈ infoAgentList configsEx :=
  (claim_C10_info_listing configsEx).2.2.1 "rev" ⟨"Reviewer", "", false⟩
    (by decide) (by decide) (by decide)
